import Mathlib

/-!
Verification of the `lalr` table-driven LALR(1) parser runtime
(`src/lalr/lalr/Parser.ipp`) against its natural-language specification.

The shallow embedding below translates the parser driver from the source:
* raw pointers into the compiled tables become `Nat` indices into lists
  (states, symbols, action slots are compared by identity in the source,
  so indices preserve the semantics);
* the two unbounded loops of the driver (`Parser::parse(symbol, lexeme)`'s
  reduce loop and `Parser::error`'s recovery loop) are written with explicit
  fuel, since adversarial tables can make either loop diverge;
* fallible operations (`std::vector::back()` on an empty stack, the
  `LALR_ASSERT( transition )` after a GOTO lookup) return `Option`, with
  `none` marking the assertion / undefined-behaviour branch;
* calls to `Parser::fire_error` are recorded as an explicit event list,
  modelling delivery to the `ErrorPolicy` sink.
-/

namespace LalrSpec

/-- Kind of a parser transition.  The source enum has `TRANSITION_SHIFT` and
`TRANSITION_REDUCE`; `other` stands for any out-of-range enum value, which the
`default:` branch of `Parser::error`'s switch treats as table corruption. -/
inductive TransitionType where
  | shift
  | reduce
  | other
deriving DecidableEq

/-- Error codes fired through `Parser::fire_error`: `PARSER_ERROR_SYNTAX`
(`synErr`) and `PARSER_ERROR_UNEXPECTED` (`unexpected`). -/
inductive ErrorEvent where
  | synErr
  | unexpected
deriving DecidableEq

/-- A transition of the compiled state machine (`ParserTransition`): input
symbol, kind, target state (for shifts and GOTOs), reduced symbol and length
(for reduces), and the semantic-action index.  `action = none` models
`ParserAction::INVALID_INDEX`. -/
structure ParserTransition where
  symbol : Nat
  type : TransitionType
  state : Nat
  reduced_symbol : Nat
  reduced_length : Nat
  action : Option Nat
deriving DecidableEq

/-- A state of the compiled state machine (`ParserState`): its outgoing
transition array, searched linearly by `Parser::find_transition`. -/
structure ParserState where
  transitions : List ParserTransition
deriving DecidableEq

/-- The compiled state machine view (`ParserStateMachine`): distinguished
handles plus the state and action tables.  Symbols are identified by `Nat`
(the runtime compares symbols by identity, never by name). -/
structure ParserStateMachine where
  start_state : Nat
  start_symbol : Nat
  end_symbol : Nat
  error_symbol : Nat
  states : List ParserState
  actions_size : Nat
deriving DecidableEq

/-- A stack frame (`ParserNode`): the state entered, the symbol that led into
it (`none` for the bottom sentinel, whose symbol pointer is null), the lexeme,
and the synthesized user data. -/
structure ParserNode (U : Type) where
  state : Nat
  symbol : Option Nat
  lexeme : String
  user_data : U
deriving DecidableEq

/-- A semantic action callback (`ParserActionFunction`): it receives the span
of frames being reduced and returns the synthesized user data. -/
def ParserActionFunction (U : Type) : Type := List (ParserNode U) → U

/-- The parser (`Parser`): borrowed state machine, node stack, the action
handler table (slot `i` holds the callback bound to action `i`, `none` when
unbound — the source's parallel `ParserActionHandler` array), the default
handler, and the `debug_enabled_` / `accepted_` / `full_` flags. -/
structure Parser (U : Type) where
  state_machine : ParserStateMachine
  nodes : List (ParserNode U)
  action_handlers : List (Option (ParserActionFunction U))
  default_action_handler : Option (ParserActionFunction U)
  debug_enabled : Bool
  accepted : Bool
  full : Bool

/-- The bottom-of-stack sentinel pushed by the constructor and by
`Parser::reset`: start state, null symbol, default-constructed user data. -/
def sentinel_node (U : Type) [Inhabited U] (sm : ParserStateMachine) : ParserNode U :=
  { state := sm.start_state, symbol := none, lexeme := "", user_data := default }

/-- The parser constructor: one action-handler slot per table action (all
unbound), no default handler, debug off, flags cleared, stack holding exactly
the sentinel. -/
def Parser.init (U : Type) [Inhabited U] (sm : ParserStateMachine) : Parser U :=
  { state_machine := sm
    nodes := [sentinel_node U sm]
    action_handlers := List.replicate sm.actions_size none
    default_action_handler := none
    debug_enabled := false
    accepted := false
    full := false }

/-- Embeds `Parser::reset`: clear `accepted_` and `full_`, truncate the stack
to a fresh sentinel.  Action bindings and the debug flag are untouched. -/
def Parser.reset {U : Type} [Inhabited U] (p : Parser U) : Parser U :=
  { p with
    accepted := false
    full := false
    nodes := [sentinel_node U p.state_machine] }

/-- Embeds `Parser::user_data`: the user data of the front (sole remaining)
frame; `none` when the stack is empty. -/
def Parser.user_data {U : Type} (p : Parser U) : Option U :=
  p.nodes.head?.map ParserNode.user_data

/-- Embeds `Parser::find_transition`: linear search of the state's transition
array for the first entry whose input symbol matches. -/
def find_transition (sm : ParserStateMachine) (symbol : Nat) (state : Nat) :
    Option ParserTransition :=
  match sm.states[state]? with
  | some st => st.transitions.find? (fun t => t.symbol == symbol)
  | none => none

/-- The driver's `find_transition( symbol, nodes_.back().state() )` pattern:
look up the lookahead transition from the top-of-stack state.  `none` also
covers the empty-stack case (where `back()` is undefined in the source). -/
def lookahead_transition {U : Type} (p : Parser U) (symbol : Nat)
    (nodes : List (ParserNode U)) : Option ParserTransition :=
  match nodes.getLast? with
  | some n => find_transition p.state_machine symbol n.state
  | none => none

/-- Embeds `Parser::handle`: if the transition's action index is valid
(`some a`) and slot `a` has a bound callback, call it on the reduced span;
otherwise fall through to the default handler when installed; otherwise
return a default-constructed user-data value. -/
def handle {U : Type} [Inhabited U] (p : Parser U) (t : ParserTransition)
    (span : List (ParserNode U)) : U :=
  match t.action with
  | some a =>
    match p.action_handlers[a]? with
    | some (some f) => f span
    | _ =>
      match p.default_action_handler with
      | some f => f span
      | none => default
  | none =>
    match p.default_action_handler with
    | some f => f span
    | none => default

/-- Embeds `Parser::shift`: push a frame carrying the transition's target
state, the transition's input symbol, the lexeme, and default user data. -/
def shift {U : Type} [Inhabited U] (t : ParserTransition) (lexeme : String)
    (nodes : List (ParserNode U)) : List (ParserNode U) :=
  nodes ++ [{ state := t.state, symbol := some t.symbol, lexeme := lexeme,
              user_data := default }]

/-- Embeds `Parser::reduce`.  For a non-start reduced symbol:
`find_node_to_reduce_to` yields the iterator `nodes.length - reduced_length`
frames from the bottom, the span above it is passed to `handle`, the stack is
truncated, the GOTO transition is looked up from the new top state, and the
synthesized frame is pushed.  `none` models the undefined branches
(`back()` on an empty stack after truncation, or the
`LALR_ASSERT( transition )` failing on a missing GOTO).  For the start symbol:
drop the bottom sentinel (`nodes_.erase( nodes_.begin() )`) and set
`accepted`; `rejected` is never written. -/
def reduce {U : Type} [Inhabited U] (p : Parser U) (t : ParserTransition)
    (nodes : List (ParserNode U)) (accepted rejected : Bool) :
    Option (List (ParserNode U) × Bool × Bool) :=
  if t.reduced_symbol ≠ p.state_machine.start_symbol then
    match (nodes.take (nodes.length - t.reduced_length)).getLast? with
    | some m =>
      match find_transition p.state_machine t.reduced_symbol m.state with
      | some g =>
        some (nodes.take (nodes.length - t.reduced_length) ++
                [{ state := g.state, symbol := some t.reduced_symbol, lexeme := "",
                   user_data := handle p t (nodes.drop (nodes.length - t.reduced_length)) }],
              accepted, rejected)
      | none => none
    | none => none
  else
    some (nodes.tail, true, rejected)

/-- The reduce loop opening `Parser::parse(symbol, lexeme)`: while the parse
is neither accepted nor rejected and the lookahead transition from the top
state is a REDUCE, perform the reduction and re-look-up the transition with
the same lookahead symbol.  Returns the final stack, flags, and the last
transition looked up.  `none` means fuel ran out (the source loop diverges on
such tables) or a reduction hit an undefined branch. -/
def reduce_loop {U : Type} [Inhabited U] (p : Parser U) (sym : Nat) :
    Nat → List (ParserNode U) → Bool → Bool →
    Option (List (ParserNode U) × Bool × Bool × Option ParserTransition)
  | fuel, nodes, accepted, rejected =>
    match lookahead_transition p sym nodes with
    | some tt =>
      if accepted = false ∧ rejected = false ∧ tt.type = TransitionType.reduce then
        match fuel with
        | 0 => none
        | fuel' + 1 =>
          match reduce p tt nodes accepted rejected with
          | some (ns, a, r) => reduce_loop p sym fuel' ns a r
          | none => none
      else
        some (nodes, accepted, rejected, some tt)
    | none => some (nodes, accepted, rejected, none)

/-- The recovery loop of `Parser::error`: while the stack is non-empty and
the error is unhandled and the parse neither accepted nor rejected, look up
the error-symbol transition from the top state; SHIFT pushes an error frame
with an empty lexeme and marks the error handled, REDUCE performs the
reduction, a missing transition pops the top frame.  The `default:` branch of
the switch fires `PARSER_ERROR_UNEXPECTED` and sets `rejected`, which ends
the loop on its next condition check — modelled by returning directly.
Returns the stack, flags, the `handled` flag, and the fired events. -/
def error_loop {U : Type} [Inhabited U] (p : Parser U) :
    Nat → List (ParserNode U) → Bool → Bool → Bool →
    Option (List (ParserNode U) × Bool × Bool × Bool × List ErrorEvent)
  | fuel, nodes, accepted, rejected, handled =>
    match nodes.getLast? with
    | none => some (nodes, accepted, rejected, handled, [])
    | some topn =>
      if handled = false ∧ accepted = false ∧ rejected = false then
        match fuel with
        | 0 => none
        | fuel' + 1 =>
          match find_transition p.state_machine p.state_machine.error_symbol
              topn.state with
          | some tt =>
            match tt.type with
            | TransitionType.shift =>
              error_loop p fuel' (shift tt "" nodes) accepted rejected true
            | TransitionType.reduce =>
              match reduce p tt nodes accepted rejected with
              | some (ns, a, r) => error_loop p fuel' ns a r handled
              | none => none
            | TransitionType.other =>
              some (nodes, accepted, true, handled, [ErrorEvent.unexpected])
          | none => error_loop p fuel' nodes.dropLast accepted rejected handled
      else
        some (nodes, accepted, rejected, handled, [])

/-- Embeds `Parser::error`: run the recovery loop (with `handled` initially
false); if the stack emptied, fire `PARSER_ERROR_SYNTAX` and set
`rejected`. -/
def error {U : Type} [Inhabited U] (p : Parser U) (fuel : Nat)
    (nodes : List (ParserNode U)) (accepted rejected : Bool) :
    Option (List (ParserNode U) × Bool × Bool × List ErrorEvent) :=
  match error_loop p fuel nodes accepted rejected false with
  | none => none
  | some (ns, a, r, _, evs) =>
    if ns.isEmpty then some (ns, a, true, evs ++ [ErrorEvent.synErr])
    else some (ns, a, r, evs)

/-- The body of `Parser::parse(symbol, lexeme)` acting on an explicit stack:
run the reduce loop with `accepted`/`rejected` locally initialised to false;
if the finally found transition exists and is a SHIFT, shift the lookahead,
otherwise enter error recovery.  Returns the stack, the final local flags,
and the fired events. -/
def step_core {U : Type} [Inhabited U] (p : Parser U) (fuel : Nat) (sym : Nat)
    (lexeme : String) (nodes : List (ParserNode U)) :
    Option (List (ParserNode U) × Bool × Bool × List ErrorEvent) :=
  match reduce_loop p sym fuel nodes false false with
  | none => none
  | some (ns, accepted, rejected, t) =>
    match t with
    | some tt =>
      if tt.type = TransitionType.shift then
        some (shift tt lexeme ns, accepted, rejected, [])
      else
        error p fuel ns accepted rejected
    | none => error p fuel ns accepted rejected

/-- Embeds `Parser::parse(symbol, lexeme)` on the parser record: run the step
on the stored stack, reassign `accepted_` to the step's local flag, and
return `!accepted_ && !rejected`. -/
def Parser.parse_step {U : Type} [Inhabited U] (p : Parser U) (fuel : Nat)
    (sym : Nat) (lexeme : String) : Option (Parser U × Bool × List ErrorEvent) :=
  match step_core p fuel sym lexeme p.nodes with
  | none => none
  | some (ns, a, r, evs) =>
    some ({ p with nodes := ns, accepted := a }, !a && !r, evs)

/-- A token handed to the parser: its symbol handle and its lexeme. -/
structure Token where
  sym : Nat
  lexeme : String
deriving DecidableEq

/-- Modelled from the spec: the lexer façade (§4.8) — `Lexer.ipp` is not under
`src/`.  The lexer holds the tokens not yet surfaced and the current token;
`advance` moves to the next token and is a no-op producing end-of-input once
the input is exhausted. -/
structure LexerModel where
  remaining : List Token
  current : Option Token
deriving DecidableEq

/-- Modelled from the spec: `Lexer::advance` — move to the next token; after
the last token the current token becomes end-of-input. -/
def LexerModel.advance : LexerModel → LexerModel
  | ⟨[], _⟩ => ⟨[], none⟩
  | ⟨t :: rest, _⟩ => ⟨rest, some t⟩

/-- Modelled from the spec: `Lexer::symbol` — the current token symbol, equal
to the end-of-input symbol after the input is consumed. -/
def LexerModel.symbol (l : LexerModel) (end_sym : Nat) : Nat :=
  match l.current with
  | some t => t.sym
  | none => end_sym

/-- Modelled from the spec: `Lexer::lexeme` — the current token text. -/
def LexerModel.lexeme (l : LexerModel) : String :=
  match l.current with
  | some t => t.lexeme
  | none => ""

/-- Modelled from the spec: `Lexer::full` — whether all input was consumed. -/
def LexerModel.full (l : LexerModel) : Bool :=
  l.remaining.isEmpty && l.current.isNone

/-- The loop of `Parser::parse(start, finish)`: feed the current lookahead to
a step; while the step returns true, advance the lexer and repeat.  Records
the sequence of lookahead symbols fed to the steps and the accumulated
events.  Returns the lexer as it stood at the final (terminating) step. -/
def parse_loop {U : Type} [Inhabited U] (p : Parser U) (stepFuel : Nat) :
    Nat → LexerModel → List (ParserNode U) → List Nat → List ErrorEvent →
    Option (LexerModel × List (ParserNode U) × Bool × List Nat × List ErrorEvent)
  | 0, _, _, _, _ => none
  | fuel + 1, lx, nodes, syms, evs =>
    let sym := lx.symbol p.state_machine.end_symbol
    match step_core p stepFuel sym lx.lexeme nodes with
    | none => none
    | some (ns, a, r, evs') =>
      if !a && !r then
        parse_loop p stepFuel fuel lx.advance ns (syms ++ [sym]) (evs ++ evs')
      else
        some (lx, ns, a, syms ++ [sym], evs ++ evs')

/-- Embeds `Parser::parse(start, finish)`: reset, rebind and advance the
lexer, run steps to completion, then set `full_` from the lexer.  The second
component of the result is the lookahead trace (one symbol per step). -/
def Parser.parse_run {U : Type} [Inhabited U] (p : Parser U)
    (stepFuel loopFuel : Nat) (tokens : List Token) :
    Option (Parser U × List Nat × List ErrorEvent) :=
  let p0 := p.reset
  let lx := (LexerModel.mk tokens none).advance
  match parse_loop p0 stepFuel loopFuel lx p0.nodes [] [] with
  | none => none
  | some (lx', ns, a, syms, evs) =>
    some ({ p0 with nodes := ns, accepted := a, full := lx'.full }, syms, evs)

/-! ### Concrete state machines used by witnesses and counterexamples -/

/-- A state machine with a single state carrying no transitions at all: every
lookahead is a syntax error and recovery can never shift the error symbol. -/
def M0 : ParserStateMachine :=
  { start_state := 0, start_symbol := 0, end_symbol := 1, error_symbol := 2,
    states := [⟨[]⟩], actions_size := 0 }

/-- A freshly constructed parser over `M0` with `Nat` user data. -/
def P0 : Parser Nat := Parser.init Nat M0

/-- A state machine whose start state reduces the lookahead `5` by an epsilon
production to symbol `7` (GOTO to state 1), after which `5` can be shifted. -/
def M1 : ParserStateMachine :=
  { start_state := 0, start_symbol := 0, end_symbol := 1, error_symbol := 2,
    states :=
      [⟨[{ symbol := 5, type := TransitionType.reduce, state := 0,
           reduced_symbol := 7, reduced_length := 0, action := none },
         { symbol := 7, type := TransitionType.shift, state := 1,
           reduced_symbol := 0, reduced_length := 0, action := none }]⟩,
       ⟨[{ symbol := 5, type := TransitionType.shift, state := 2,
           reduced_symbol := 0, reduced_length := 0, action := none }]⟩,
       ⟨[]⟩],
    actions_size := 0 }

/-- A freshly constructed parser over `M1` with `Nat` user data. -/
def P1 : Parser Nat := Parser.init Nat M1

/-- The epsilon-reduction transition of `M1`'s start state. -/
def M1_red : ParserTransition :=
  { symbol := 5, type := TransitionType.reduce, state := 0,
    reduced_symbol := 7, reduced_length := 0, action := none }

/-- A state machine whose lookahead `1` reduces to the start symbol `0` from
the state `3` reached by the final frame, triggering acceptance. -/
def M2 : ParserStateMachine :=
  { start_state := 0, start_symbol := 0, end_symbol := 1, error_symbol := 2,
    states :=
      [⟨[]⟩, ⟨[]⟩, ⟨[]⟩,
       ⟨[{ symbol := 1, type := TransitionType.reduce, state := 0,
           reduced_symbol := 0, reduced_length := 1, action := none }]⟩],
    actions_size := 0 }

/-- A freshly constructed parser over `M2` with `Nat` user data. -/
def P2 : Parser Nat := Parser.init Nat M2

/-- The accepting (start-symbol) reduction transition of `M2`. -/
def M2_acc : ParserTransition :=
  { symbol := 1, type := TransitionType.reduce, state := 0,
    reduced_symbol := 0, reduced_length := 1, action := none }

/-- A sentinel-shaped frame used as the bottom of concrete stacks. -/
def N_sent : ParserNode Nat := { state := 0, symbol := none, lexeme := "", user_data := 0 }

/-- A concrete final frame sitting above the sentinel before acceptance. -/
def N_fin : ParserNode Nat := { state := 3, symbol := some 9, lexeme := "lex", user_data := 42 }

/-- A state machine where lookahead `10` has no transition from the start
state but the error symbol `2` can be shifted there (to state 1); from state
1 the lookahead `11` shifts to state 2, and from state 2 the end symbol `1`
reduces to the start symbol. -/
def M3 : ParserStateMachine :=
  { start_state := 0, start_symbol := 0, end_symbol := 1, error_symbol := 2,
    states :=
      [⟨[{ symbol := 2, type := TransitionType.shift, state := 1,
           reduced_symbol := 0, reduced_length := 0, action := none }]⟩,
       ⟨[{ symbol := 11, type := TransitionType.shift, state := 2,
           reduced_symbol := 0, reduced_length := 0, action := none }]⟩,
       ⟨[{ symbol := 1, type := TransitionType.reduce, state := 0,
           reduced_symbol := 0, reduced_length := 2, action := none }]⟩],
    actions_size := 0 }

/-- A freshly constructed parser over `M3` with `Nat` user data. -/
def P3 : Parser Nat := Parser.init Nat M3

/-- The input for the recovery trace: token `10` (which triggers recovery)
followed by token `11`. -/
def C3toks : List Token := [⟨10, "x"⟩, ⟨11, "y"⟩]

/-! ### Helper lemmas -/

/-- A transition found by `find_transition` matches the searched symbol. -/
theorem find_transition_symbol {sm : ParserStateMachine} {s st : Nat}
    {tt : ParserTransition} (h : find_transition sm s st = some tt) :
    tt.symbol = s := by
  unfold find_transition at h
  cases hst : sm.states[st]? with
  | none => rw [hst] at h; cases h
  | some stt =>
    rw [hst] at h
    have := List.find?_some h
    simpa using this

/-- `Parser::reduce` never writes the `rejected` flag. -/
theorem reduce_rejected_eq {U : Type} [Inhabited U] {p : Parser U}
    {t : ParserTransition} {nodes ns : List (ParserNode U)} {a r a' r' : Bool}
    (h : reduce p t nodes a r = some (ns, a', r')) : r' = r := by
  unfold reduce at h
  split at h
  · split at h
    · split at h
      · simp only [Option.some.injEq, Prod.mk.injEq] at h
        exact h.2.2.symm
      · cases h
    · cases h
  · simp only [Option.some.injEq, Prod.mk.injEq] at h
    exact h.2.2.symm

/-- `Parser::reduce` turns on `accepted` exactly for start-symbol reductions. -/
theorem reduce_accepted_iff {U : Type} [Inhabited U] {p : Parser U}
    {t : ParserTransition} {nodes ns : List (ParserNode U)} {a r a' r' : Bool}
    (h : reduce p t nodes a r = some (ns, a', r')) :
    a' = true ↔ (a = true ∨ t.reduced_symbol = p.state_machine.start_symbol) := by
  unfold reduce at h
  split at h
  next hne =>
    split at h
    · split at h
      · simp only [Option.some.injEq, Prod.mk.injEq] at h
        rw [← h.2.1]
        constructor
        · intro ha
          exact Or.inl ha
        · intro hor
          rcases hor with ha | hs
          · exact ha
          · exact absurd hs hne
      · cases h
    · cases h
  next hne =>
    simp only [Option.some.injEq, Prod.mk.injEq] at h
    rw [← h.2.1]
    constructor
    · intro _
      exact Or.inr (not_not.mp hne)
    · intro _
      rfl

/-- The reduce loop never writes the `rejected` flag. -/
theorem reduce_loop_rejected {U : Type} [Inhabited U] (p : Parser U) (sym : Nat) :
    ∀ (fuel : Nat) (nodes ns : List (ParserNode U)) (a a' r' : Bool)
      (t' : Option ParserTransition),
      reduce_loop p sym fuel nodes a false = some (ns, a', r', t') → r' = false := by
  intro fuel
  induction fuel with
  | zero =>
    intro nodes ns a a' r' t' h
    unfold reduce_loop at h
    split at h
    · split at h
      · cases h
      · simp only [Option.some.injEq, Prod.mk.injEq] at h
        exact h.2.2.1.symm
    · simp only [Option.some.injEq, Prod.mk.injEq] at h
      exact h.2.2.1.symm
  | succ fuel ih =>
    intro nodes ns a a' r' t' h
    unfold reduce_loop at h
    split at h
    · split at h
      · split at h
        · cases h
        · next fuel' heq =>
            split at h
            · next ns2 a2 r2 hred =>
                have hf : fuel' = fuel := by omega
                subst hf
                have hr2 : r2 = false := reduce_rejected_eq hred
                subst hr2
                exact ih ns2 ns a2 a' r' t' h
            · cases h
      · simp only [Option.some.injEq, Prod.mk.injEq] at h
        exact h.2.2.1.symm
    · simp only [Option.some.injEq, Prod.mk.injEq] at h
      exact h.2.2.1.symm

/-- The recovery loop never fires `PARSER_ERROR_SYNTAX` itself; only the
post-loop check in `Parser::error` does. -/
theorem error_loop_no_syn {U : Type} [Inhabited U] (p : Parser U) :
    ∀ (fuel : Nat) (nodes ns : List (ParserNode U)) (a r hd a' r' hd' : Bool)
      (evs : List ErrorEvent),
      error_loop p fuel nodes a r hd = some (ns, a', r', hd', evs) →
      ErrorEvent.synErr ∉ evs := by
  intro fuel
  induction fuel with
  | zero =>
    intro nodes ns a r hd a' r' hd' evs h
    unfold error_loop at h
    split at h
    · simp only [Option.some.injEq, Prod.mk.injEq] at h
      rw [← h.2.2.2.2]
      simp
    · split at h
      · cases h
      · simp only [Option.some.injEq, Prod.mk.injEq] at h
        rw [← h.2.2.2.2]
        simp
  | succ fuel ih =>
    intro nodes ns a r hd a' r' hd' evs h
    unfold error_loop at h
    split at h
    · simp only [Option.some.injEq, Prod.mk.injEq] at h
      rw [← h.2.2.2.2]
      simp
    · split at h
      · split at h
        · cases h
        · next fuel' heq =>
            have hf : fuel' = fuel := by omega
            subst hf
            split at h
            · split at h
              · exact ih _ _ _ _ _ _ _ _ _ h
              · split at h
                · exact ih _ _ _ _ _ _ _ _ _ h
                · cases h
              · simp only [Option.some.injEq, Prod.mk.injEq] at h
                rw [← h.2.2.2.2]
                simp
            · exact ih _ _ _ _ _ _ _ _ _ h
      · simp only [Option.some.injEq, Prod.mk.injEq] at h
        rw [← h.2.2.2.2]
        simp

/-- If the recovery loop turned `rejected` on, it fired an event. -/
theorem error_loop_reject_event {U : Type} [Inhabited U] (p : Parser U) :
    ∀ (fuel : Nat) (nodes ns : List (ParserNode U)) (a hd a' hd' : Bool)
      (evs : List ErrorEvent),
      error_loop p fuel nodes a false hd = some (ns, a', true, hd', evs) →
      evs ≠ [] := by
  intro fuel
  induction fuel with
  | zero =>
    intro nodes ns a hd a' hd' evs h
    unfold error_loop at h
    split at h
    · simp only [Option.some.injEq, Prod.mk.injEq] at h
      exact absurd h.2.2.1 (by simp)
    · split at h
      · cases h
      · simp only [Option.some.injEq, Prod.mk.injEq] at h
        exact absurd h.2.2.1 (by simp)
  | succ fuel ih =>
    intro nodes ns a hd a' hd' evs h
    unfold error_loop at h
    split at h
    · simp only [Option.some.injEq, Prod.mk.injEq] at h
      exact absurd h.2.2.1 (by simp)
    · split at h
      · split at h
        · cases h
        · next fuel' heq =>
            have hf : fuel' = fuel := by omega
            subst hf
            split at h
            · split at h
              · exact ih _ _ _ _ _ _ _ h
              · split at h
                · next ns2 a2 r2 hred =>
                    have hr2 : r2 = false := reduce_rejected_eq hred
                    subst hr2
                    exact ih _ _ _ _ _ _ _ h
                · cases h
              · simp only [Option.some.injEq, Prod.mk.injEq] at h
                rw [← h.2.2.2.2]
                simp
            · exact ih _ _ _ _ _ _ _ h
      · simp only [Option.some.injEq, Prod.mk.injEq] at h
        exact absurd h.2.2.1 (by simp)

/-- With `accepted` already set, the recovery loop exits immediately. -/
theorem error_loop_accepted {U : Type} [Inhabited U] (p : Parser U)
    (fuel : Nat) (nodes : List (ParserNode U)) (r hd : Bool) :
    error_loop p fuel nodes true r hd = some (nodes, true, r, hd, []) := by
  unfold error_loop
  cases h : nodes.getLast? with
  | none => simp
  | some topn => simp [h]


/-- Modelled from the spec: the action dispatcher's `invoke` operation as
worded in §4.4 — "if `transition.action_index` is valid and the slot has a
callback, call it with the frame span being reduced; otherwise call the
default handler if installed; otherwise return a default-constructed
user-data value". -/
def invoke_spec {U : Type} [Inhabited U] (p : Parser U) (t : ParserTransition)
    (span : List (ParserNode U)) : U :=
  match t.action.bind (fun a => (p.action_handlers[a]?).bind id) with
  | some f => f span
  | none =>
    match p.default_action_handler with
    | some f => f span
    | none => default

/-- C5: for every reduction, the user data of the synthesized frame is
computed by `Parser::handle` exactly as the spec words the dispatcher's
`invoke`: a valid action index with a bound callback wins; otherwise the
default handler if installed; otherwise a default-constructed value. -/
theorem c5_action_dispatch {U : Type} [Inhabited U] (p : Parser U)
    (t : ParserTransition) (span : List (ParserNode U)) :
    handle p t span = invoke_spec p t span := by
  unfold handle invoke_spec
  cases t.action with
  | none => rfl
  | some a =>
    cases hh : p.action_handlers[a]? with
    | none => simp [hh]
    | some slot => cases slot <;> simp [hh]

/-- C8: `Parser::reset` leaves exactly the start-state sentinel with default
user data on the stack, clears `accepted` and `full`, keeps every
action-handler binding (and the default handler and debug flag) unchanged,
and is idempotent. -/
theorem c8_reset_state {U : Type} [Inhabited U] (p : Parser U) :
    (p.reset).nodes = [sentinel_node U p.state_machine] ∧
    (p.reset).accepted = false ∧
    (p.reset).full = false ∧
    (p.reset).action_handlers = p.action_handlers ∧
    (p.reset).default_action_handler = p.default_action_handler ∧
    (p.reset).debug_enabled = p.debug_enabled ∧
    (p.reset).state_machine = p.state_machine ∧
    p.reset.reset = p.reset :=
  ⟨rfl, rfl, rfl, rfl, rfl, rfl, rfl, rfl⟩


/-- C7: a non-start reduction with `reduced_length ≤ depth − 1` and a GOTO
transition available from the post-truncation top state (guaranteed by table
construction) succeeds — the GOTO lookup never takes the null/assertion
branch — preserves the bottom sentinel, and leaves depth
`depth − reduced_length + 1`; a reduction of `depth − 1` frames leaves
exactly the sentinel plus the new frame, and an epsilon reduction pushes
without popping. -/
theorem c7_reduce_within_stack {U : Type} [Inhabited U] (p : Parser U)
    (t : ParserTransition) (nodes : List (ParserNode U)) (a r : Bool)
    (m nf : ParserNode U) (g : ParserTransition)
    (hns : t.reduced_symbol ≠ p.state_machine.start_symbol)
    (hlen : t.reduced_length + 1 ≤ nodes.length)
    (hm : (nodes.take (nodes.length - t.reduced_length)).getLast? = some m)
    (hg : find_transition p.state_machine t.reduced_symbol m.state = some g)
    (hnf : nf = { state := g.state, symbol := some t.reduced_symbol, lexeme := "",
                  user_data :=
                    handle p t (nodes.drop (nodes.length - t.reduced_length)) }) :
    reduce p t nodes a r =
      some (nodes.take (nodes.length - t.reduced_length) ++ [nf], a, r) ∧
    (nodes.take (nodes.length - t.reduced_length) ++ [nf]).head? = nodes.head? ∧
    (nodes.take (nodes.length - t.reduced_length) ++ [nf]).length =
      nodes.length - t.reduced_length + 1 ∧
    (t.reduced_length = 0 →
      nodes.take (nodes.length - t.reduced_length) ++ [nf] = nodes ++ [nf]) ∧
    (t.reduced_length + 1 = nodes.length →
      nodes.take (nodes.length - t.reduced_length) ++ [nf] = [m, nf]) := by
  subst hnf
  refine ⟨?_, ?_, ?_, ?_, ?_⟩
  · unfold reduce
    rw [if_pos hns]
    simp only [hm]
    simp only [hg]
  · cases nodes with
    | nil => simp at hlen
    | cons x xs =>
      obtain ⟨j, hj⟩ : ∃ j, (x :: xs).length - t.reduced_length = j + 1 :=
        ⟨(x :: xs).length - t.reduced_length - 1, by omega⟩
      rw [hj]
      simp [List.take_cons]
  · simp [List.length_append, List.length_take]
  · intro h0
    rw [h0]
    simp
  · intro hfull
    have h1 : nodes.length - t.reduced_length = 1 := by omega
    rw [h1] at hm ⊢
    cases nodes with
    | nil => simp at hlen
    | cons x xs =>
      simp [List.take_cons] at hm ⊢
      exact hm


/-- C2: a reduction whose reduced symbol is the start symbol, on the stack
`[sentinel, final_frame]`, drops the sentinel, turns `accepted` on, and leaves
depth 1 with `user_data()` the retained frame's user data; and any step whose
reduce loop ends accepted returns false with the `accepted` flag set. -/
theorem c2_start_reduction_accepts {U : Type} [Inhabited U] (p : Parser U)
    (t : ParserTransition) (s f : ParserNode U)
    (hsym : t.reduced_symbol = p.state_machine.start_symbol) :
    (∀ a r : Bool, reduce p t [s, f] a r = some ([f], true, r)) ∧
    Parser.user_data { p with nodes := [f] } = some f.user_data ∧
    (∀ (q : Parser U) (fuel sym : Nat) (lexeme : String)
        (ns : List (ParserNode U)) (r : Bool) (topt : Option ParserTransition),
      reduce_loop q sym fuel q.nodes false false = some (ns, true, r, topt) →
      ∃ (p' : Parser U) (evs : List ErrorEvent),
        Parser.parse_step q fuel sym lexeme = some (p', false, evs) ∧
        p'.accepted = true) := by
  refine ⟨?_, rfl, ?_⟩
  · intro a r
    unfold reduce
    rw [if_neg (by simp [hsym])]
    rfl
  · intro q fuel sym lexeme ns r topt hloop
    unfold Parser.parse_step step_core
    simp only [hloop]
    cases topt with
    | some tt =>
      by_cases hty : tt.type = TransitionType.shift
      · simp only [if_pos hty]
        exact ⟨_, _, rfl, rfl⟩
      · simp only [if_neg hty]
        unfold error
        rw [error_loop_accepted]
        by_cases hemp : ns.isEmpty
        · simp only [if_pos hemp]
          exact ⟨_, _, rfl, rfl⟩
        · simp only [if_neg hemp]
          exact ⟨_, _, rfl, rfl⟩
    | none =>
      unfold error
      rw [error_loop_accepted]
      by_cases hemp : ns.isEmpty
      · simp only [if_pos hemp]
        exact ⟨_, _, rfl, rfl⟩
      · simp only [if_neg hemp]
        exact ⟨_, _, rfl, rfl⟩


/-- C1: while the lookahead transition from the top state exists and is a
REDUCE, the driver performs the reduction and re-looks-up the transition with
the same (unconsumed) lookahead symbol; all reductions happen strictly before
the shift, and the step ends with a shift exactly when the finally found
transition is a SHIFT (otherwise it enters error recovery). -/
theorem c1_reduce_loop_before_shift {U : Type} [Inhabited U] (p : Parser U)
    (sym : Nat) :
    (∀ (fuel : Nat) (nodes ns' : List (ParserNode U)) (tt : ParserTransition)
        (a' r' : Bool),
      lookahead_transition p sym nodes = some tt →
      tt.type = TransitionType.reduce →
      reduce p tt nodes false false = some (ns', a', r') →
      reduce_loop p sym (fuel + 1) nodes false false =
        reduce_loop p sym fuel ns' a' r') ∧
    (∀ (fuel : Nat) (lexeme : String) (nodes ns1 : List (ParserNode U))
        (a1 r1 : Bool) (t2 : ParserTransition),
      reduce_loop p sym fuel nodes false false = some (ns1, a1, r1, some t2) →
      (t2.type = TransitionType.shift →
        step_core p fuel sym lexeme nodes = some (shift t2 lexeme ns1, a1, r1, [])) ∧
      (t2.type ≠ TransitionType.shift →
        step_core p fuel sym lexeme nodes = error p fuel ns1 a1 r1)) ∧
    (∀ (fuel : Nat) (lexeme : String) (nodes ns1 : List (ParserNode U))
        (a1 r1 : Bool),
      reduce_loop p sym fuel nodes false false = some (ns1, a1, r1, none) →
      step_core p fuel sym lexeme nodes = error p fuel ns1 a1 r1) := by
  refine ⟨?_, ?_, ?_⟩
  · intro fuel nodes ns' tt a' r' hla hty hred
    conv_lhs => unfold reduce_loop
    simp only [hla, hty, hred]
    simp
  · intro fuel lexeme nodes ns1 a1 r1 t2 hloop
    constructor
    · intro hty
      unfold step_core
      simp only [hloop, if_pos hty]
    · intro hty
      unfold step_core
      simp only [hloop, if_neg hty]
  · intro fuel lexeme nodes ns1 a1 r1 hloop
    unfold step_core
    simp only [hloop]


/-- C4 (counterexample): over `M0` — one state with no transitions — the very
first step from the reset stack enters recovery, recovery exhausts the stack,
and the step ends with the node stack at depth 0, refuting "after every step
the node stack has depth at least 1". -/
theorem c4_counterexample :
    (Parser.parse_step P0 5 3 "").map
        (fun r => (r.1.nodes.length, r.2.1, r.2.2)) =
      some (0, false, [ErrorEvent.synErr]) := by decide

/-- C4 (amended): after every step the node stack has depth at least 1,
except when error recovery exhausts the stack — then the step returns false
and a syntax-error notification was fired, and only then may the stack be
empty. -/

theorem c4_depth_after_step {U : Type} [Inhabited U] (p : Parser U)
    (fuel sym : Nat) (lexeme : String) (p' : Parser U) (res : Bool)
    (evs : List ErrorEvent)
    (h : Parser.parse_step p fuel sym lexeme = some (p', res, evs)) :
    1 ≤ p'.nodes.length ∨ (res = false ∧ ErrorEvent.synErr ∈ evs) := by
  unfold Parser.parse_step at h
  cases hc : step_core p fuel sym lexeme p.nodes with
  | none =>
    simp only [hc] at h
    exact Option.noConfusion h
  | some out =>
    obtain ⟨ns, a, r, evs'⟩ := out
    simp only [hc, Option.some.injEq, Prod.mk.injEq] at h
    obtain ⟨hp', hres, hevs⟩ := h
    unfold step_core at hc
    cases hl : reduce_loop p sym fuel p.nodes false false with
    | none =>
      simp only [hl] at hc
      exact Option.noConfusion hc
    | some out1 =>
      obtain ⟨ns1, a1, r1, topt⟩ := out1
      have herr : ∀ (he : error p fuel ns1 a1 r1 = some (ns, a, r, evs')),
          1 ≤ p'.nodes.length ∨ (res = false ∧ ErrorEvent.synErr ∈ evs) := by
        intro he
        unfold error at he
        cases hel : error_loop p fuel ns1 a1 r1 false with
        | none =>
          simp only [hel] at he
          exact Option.noConfusion he
        | some out2 =>
          obtain ⟨ns2, a2, r2, hd2, evs2⟩ := out2
          simp only [hel] at he
          by_cases hemp : ns2.isEmpty
          · rw [if_pos hemp] at he
            simp only [Option.some.injEq, Prod.mk.injEq] at he
            right
            constructor
            · rw [← hres, ← he.2.2.1]
              simp
            · rw [← hevs, ← he.2.2.2]
              simp
          · rw [if_neg hemp] at he
            simp only [Option.some.injEq, Prod.mk.injEq] at he
            left
            rw [← hp']
            have hne : ns2 ≠ [] := by
              intro hx
              exact hemp (by simp [hx])
            have hlen : 0 < ns2.length := List.length_pos.mpr hne
            simp only [← he.1]
            omega
      cases topt with
      | some tt =>
        simp only [hl] at hc
        by_cases hty : tt.type = TransitionType.shift
        · rw [if_pos hty] at hc
          simp only [Option.some.injEq, Prod.mk.injEq] at hc
          left
          rw [← hp', ← hc.1]
          simp [shift]
        · rw [if_neg hty] at hc
          exact herr hc
      | none =>
        simp only [hl] at hc
        exact herr hc


/-- C3 (counterexample): over `M3`, the step on lookahead `10` enters
recovery and shifts an error frame (with empty lexeme); the driver of
`parse(begin, end)` then advances the lexer, so the lookahead trace of the
run is `[10, 11, 1]` — the step after recovery is entered with the next token
`11`, not with the failing lookahead `10` again. -/
theorem c3_counterexample :
    (step_core P3 5 10 "x" [N_sent]).map
        (fun r => (r.1, r.2.1, r.2.2.1, r.2.2.2)) =
      some ([N_sent,
             { state := 1, symbol := some 2, lexeme := "", user_data := 0 }],
            false, false, []) ∧
    (P3.parse_run 5 9 C3toks).map (fun r => r.2.1) = some [10, 11, 1] ∧
    ¬ (P3.parse_run 5 9 C3toks).map (fun r => r.2.1[1]?) = some (some 10) := by
  refine ⟨by decide, by decide, by decide⟩

/-- C3 (amended): within `parse(begin, end)`, after every step that returns
true — including a step in which error recovery handled the failure — the
driver advances the lexer before the next step; the next step is therefore
entered with the following token, and the failing lookahead is discarded
rather than re-presented. -/
theorem c3_driver_advances {U : Type} [Inhabited U] (p : Parser U)
    (stepFuel fuel : Nat) (lx : LexerModel) (nodes ns : List (ParserNode U))
    (syms : List Nat) (evs evs' : List ErrorEvent)
    (h : step_core p stepFuel (lx.symbol p.state_machine.end_symbol) lx.lexeme
          nodes = some (ns, false, false, evs')) :
    parse_loop p stepFuel (fuel + 1) lx nodes syms evs =
      parse_loop p stepFuel fuel lx.advance ns
        (syms ++ [lx.symbol p.state_machine.end_symbol]) (evs ++ evs') := by
  conv_lhs => unfold parse_loop
  simp only [h]
  simp


/-- C6: during recovery, a top state with no error-symbol transition pops a
frame; a SHIFT transition on the error symbol pushes an error frame with an
empty lexeme and ends recovery as handled; if the stack empties without the
error being handled, `rejected` is set with exactly one syntax-error
notification, and a step ending rejected returns false. -/
theorem c6_error_recovery {U : Type} [Inhabited U] (p : Parser U) :
    (∀ (fuel : Nat) (nodes : List (ParserNode U)) (topn : ParserNode U),
      nodes.getLast? = some topn →
      find_transition p.state_machine p.state_machine.error_symbol topn.state =
        none →
      error_loop p (fuel + 1) nodes false false false =
        error_loop p fuel nodes.dropLast false false false) ∧
    (∀ (fuel : Nat) (nodes : List (ParserNode U)) (topn : ParserNode U)
        (tt : ParserTransition),
      nodes.getLast? = some topn →
      find_transition p.state_machine p.state_machine.error_symbol topn.state =
        some tt →
      tt.type = TransitionType.shift →
      tt.symbol = p.state_machine.error_symbol ∧
      error_loop p (fuel + 1) nodes false false false =
        some (nodes ++ [{ state := tt.state, symbol := some tt.symbol,
                          lexeme := "", user_data := default }],
              false, false, true, [])) ∧
    (∀ (fuel : Nat) (nodes ns : List (ParserNode U)) (a r a' r' : Bool)
        (evs : List ErrorEvent),
      error p fuel nodes a r = some (ns, a', r', evs) → ns = [] →
      r' = true ∧ evs.count ErrorEvent.synErr = 1) ∧
    (∀ (q : Parser U) (fuel sym : Nat) (lexeme : String)
        (ns : List (ParserNode U)) (a : Bool) (evs : List ErrorEvent),
      step_core q fuel sym lexeme q.nodes = some (ns, a, true, evs) →
      Parser.parse_step q fuel sym lexeme =
        some ({ q with nodes := ns, accepted := a }, false, evs)) := by
  refine ⟨?_, ?_, ?_, ?_⟩
  · intro fuel nodes topn hlast hfind
    conv_lhs => unfold error_loop
    simp only [hlast, hfind]
    simp
  · intro fuel nodes topn tt hlast hfind hty
    refine ⟨find_transition_symbol hfind, ?_⟩
    conv_lhs => unfold error_loop
    simp only [hlast, hfind, hty]
    simp only [show (false = false ∧ false = false ∧ false = false) =
      (True ∧ True ∧ True) by simp, and_self, if_true]
    unfold shift
    conv_lhs => unfold error_loop
    simp [List.getLast?_concat]
  · intro fuel nodes ns a r a' r' evs he hns
    subst hns
    unfold error at he
    cases hel : error_loop p fuel nodes a r false with
    | none =>
      simp only [hel] at he
      exact Option.noConfusion he
    | some out =>
      obtain ⟨ns2, a2, r2, hd2, evs2⟩ := out
      simp only [hel] at he
      by_cases hemp : ns2.isEmpty
      · rw [if_pos hemp] at he
        simp only [Option.some.injEq, Prod.mk.injEq] at he
        refine ⟨he.2.2.1.symm, ?_⟩
        rw [← he.2.2.2]
        rw [List.count_append]
        have hnot := error_loop_no_syn p fuel nodes ns2 a r false a2 r2 hd2 evs2 hel
        rw [List.count_eq_zero.mpr hnot]
        simp
      · rw [if_neg hemp] at he
        simp only [Option.some.injEq, Prod.mk.injEq] at he
        rw [he.1] at hemp
        simp at hemp
  · intro q fuel sym lexeme ns a evs hstep
    unfold Parser.parse_step
    simp only [hstep]
    simp


/-- C9: every step's return value is exactly `!accepted && !rejected` of the
step's final local flags — it carries no error information beyond the
rejection latch — a step in which rejection occurs returns false, and every
rejection is accompanied by at least one error-policy notification. -/
theorem c9_errors_via_policy {U : Type} [Inhabited U] (p : Parser U)
    (fuel sym : Nat) (lexeme : String) (ns : List (ParserNode U))
    (a r : Bool) (evs : List ErrorEvent)
    (h : step_core p fuel sym lexeme p.nodes = some (ns, a, r, evs)) :
    Parser.parse_step p fuel sym lexeme =
      some ({ p with nodes := ns, accepted := a }, !a && !r, evs) ∧
    (r = true → (!a && !r) = false) ∧
    (r = true → evs ≠ []) := by
  refine ⟨?_, ?_, ?_⟩
  · unfold Parser.parse_step
    simp only [h]
  · intro hr
    rw [hr]
    simp
  · intro hr
    subst hr
    unfold step_core at h
    cases hl : reduce_loop p sym fuel p.nodes false false with
    | none =>
      simp only [hl] at h
      exact Option.noConfusion h
    | some out1 =>
      obtain ⟨ns1, a1, r1, topt⟩ := out1
      have hr1 : r1 = false := reduce_loop_rejected p sym fuel p.nodes ns1 false a1 r1 topt hl
      subst hr1
      have herr : error p fuel ns1 a1 false = some (ns, a, true, evs) → evs ≠ [] := by
        intro he
        unfold error at he
        cases hel : error_loop p fuel ns1 a1 false false with
        | none =>
          simp only [hel] at he
          exact Option.noConfusion he
        | some out2 =>
          obtain ⟨ns2, a2, r2, hd2, evs2⟩ := out2
          simp only [hel] at he
          by_cases hemp : ns2.isEmpty
          · rw [if_pos hemp] at he
            simp only [Option.some.injEq, Prod.mk.injEq] at he
            rw [← he.2.2.2]
            simp
          · rw [if_neg hemp] at he
            simp only [Option.some.injEq, Prod.mk.injEq] at he
            have hr2 : r2 = true := he.2.2.1
            subst hr2
            have := error_loop_reject_event p fuel ns1 ns2 a1 false a2 hd2 evs2 hel
            rw [← he.2.2.2]
            exact this
      cases topt with
      | some tt =>
        simp only [hl] at h
        by_cases hty : tt.type = TransitionType.shift
        · rw [if_pos hty] at h
          simp only [Option.some.injEq, Prod.mk.injEq] at h
          exact absurd h.2.2.1 (by simp)
        · rw [if_neg hty] at h
          exact herr h
      | none =>
        simp only [hl] at h
        exact herr h

/-- C10: the `accepted_` flag is reassigned on every step to that step's own
outcome — a step's stored flag equals its local `accepted`, `accepted` turns
on only for start-symbol reductions, and a non-accepting step performed after
an accepting one clears the flag (it is not a sticky latch). -/
theorem c10_accepted_reassigned {U : Type} [Inhabited U] (p : Parser U) :
    (∀ (fuel sym : Nat) (lexeme : String) (ns : List (ParserNode U))
        (a r : Bool) (evs : List ErrorEvent),
      step_core p fuel sym lexeme p.nodes = some (ns, a, r, evs) →
      Parser.parse_step p fuel sym lexeme =
        some ({ p with nodes := ns, accepted := a }, !a && !r, evs)) ∧
    (∀ (t : ParserTransition) (nodes ns : List (ParserNode U)) (a r a' r' : Bool),
      reduce p t nodes a r = some (ns, a', r') →
      (a' = true ↔ (a = true ∨ t.reduced_symbol = p.state_machine.start_symbol))) ∧
    (∀ (fuel sym : Nat) (lexeme : String) (ns : List (ParserNode U))
        (r : Bool) (evs : List ErrorEvent),
      p.accepted = true →
      step_core p fuel sym lexeme p.nodes = some (ns, false, r, evs) →
      ∃ (p' : Parser U) (res : Bool) (evs' : List ErrorEvent),
        Parser.parse_step p fuel sym lexeme = some (p', res, evs') ∧
        p'.accepted = false) := by
  refine ⟨?_, ?_, ?_⟩
  · intro fuel sym lexeme ns a r evs h
    unfold Parser.parse_step
    simp only [h]
  · intro t nodes ns a r a' r' h
    exact reduce_accepted_iff h
  · intro fuel sym lexeme ns r evs _ h
    refine ⟨{ p with nodes := ns, accepted := false }, !false && !r, evs, ?_, rfl⟩
    unfold Parser.parse_step
    simp only [h]


/-! ### Concrete data for the witnesses -/

/-- The frame pushed by `M1`'s epsilon reduction (GOTO to state 1). -/
def N7 : ParserNode Nat := { state := 1, symbol := some 7, lexeme := "", user_data := 0 }

/-- The shift transition of `M1`'s state 1 on symbol `5`. -/
def T_s5 : ParserTransition :=
  { symbol := 5, type := TransitionType.shift, state := 2,
    reduced_symbol := 0, reduced_length := 0, action := none }

/-- The GOTO transition of `M1`'s start state on symbol `7`. -/
def T_g7 : ParserTransition :=
  { symbol := 7, type := TransitionType.shift, state := 1,
    reduced_symbol := 0, reduced_length := 0, action := none }

/-- The error-symbol shift transition of `M3`'s start state. -/
def T_err3 : ParserTransition :=
  { symbol := 2, type := TransitionType.shift, state := 1,
    reduced_symbol := 0, reduced_length := 0, action := none }

/-- The lexer of the `C3toks` run after its initial `advance`. -/
def LX3 : LexerModel := { remaining := [⟨11, "y"⟩], current := some ⟨10, "x"⟩ }

/-- The `M2` parser holding the pre-acceptance stack `[N_sent, N_fin]`. -/
def QW2 : Parser Nat := { P2 with nodes := [N_sent, N_fin] }

/-- The `M0` parser with its `accepted` flag forced on. -/
def PW10 : Parser Nat := { P0 with accepted := true }

/-- The `M0` parser after the rejecting step: empty stack, flags cleared. -/
def P0r : Parser Nat := { P0 with nodes := [], accepted := false }

/-- The frame `Parser::reduce` synthesizes for `M1`'s epsilon reduction. -/
def NF7 : ParserNode Nat :=
  { state := T_g7.state, symbol := some M1_red.reduced_symbol, lexeme := "",
    user_data := handle P1 M1_red
      (List.drop (([N_sent] : List (ParserNode Nat)).length -
        M1_red.reduced_length) [N_sent]) }

/-- Witness for C1 over `M1`: the epsilon reduction on lookahead `5` unfolds
one loop iteration keeping the same lookahead, and the step ends with the
shift found after the reduction. -/
theorem c1_witness :
    lookahead_transition P1 5 [N_sent] = some M1_red ∧
    M1_red.type = TransitionType.reduce ∧
    reduce P1 M1_red [N_sent] false false = some ([N_sent, N7], false, false) ∧
    reduce_loop P1 5 4 [N_sent] false false =
      reduce_loop P1 5 3 [N_sent, N7] false false ∧
    reduce_loop P1 5 3 [N_sent] false false =
      some ([N_sent, N7], false, false, some T_s5) ∧
    step_core P1 3 5 "z" [N_sent] =
      some (shift T_s5 "z" [N_sent, N7], false, false, []) := by
  have h := c1_reduce_loop_before_shift P1 5
  refine ⟨by decide, by decide, by decide, ?_, by decide, ?_⟩
  · exact h.1 3 [N_sent] [N_sent, N7] M1_red false false (by decide) (by decide)
      (by decide)
  · exact (h.2.1 3 "z" [N_sent] [N_sent, N7] false false T_s5 (by decide)).1 rfl

/-- Witness for C2 over `M2`: the start-symbol reduction on `[N_sent, N_fin]`
drops the sentinel, accepts, retains the final frame's user data, and the
step returns false with the accepted flag set. -/
theorem c2_witness :
    M2_acc.reduced_symbol = P2.state_machine.start_symbol ∧
    reduce P2 M2_acc [N_sent, N_fin] false false = some ([N_fin], true, false) ∧
    Parser.user_data { P2 with nodes := [N_fin] } = some N_fin.user_data ∧
    reduce_loop QW2 1 2 QW2.nodes false false =
      some ([N_fin], true, false, some M2_acc) ∧
    (∃ (p' : Parser Nat) (evs : List ErrorEvent),
      Parser.parse_step QW2 2 1 "" = some (p', false, evs) ∧
      p'.accepted = true) := by
  have h := c2_start_reduction_accepts P2 M2_acc N_sent N_fin rfl
  exact ⟨rfl, h.1 false false, h.2.1, by decide,
    h.2.2 QW2 2 1 "" [N_fin] false (some M2_acc) (by decide)⟩

/-- Witness for C3 (amended) over `M3`: the step on lookahead `10` (which is
handled by recovery) returns continue, and the driver's next iteration runs
on the advanced lexer. -/
theorem c3_witness :
    step_core P3 5 (LX3.symbol P3.state_machine.end_symbol) LX3.lexeme
        [N_sent] =
      some ([N_sent, { state := 1, symbol := some 2, lexeme := "",
                       user_data := 0 }], false, false, []) ∧
    parse_loop P3 5 4 LX3 [N_sent] [] [] =
      parse_loop P3 5 3 LX3.advance
        [N_sent, { state := 1, symbol := some 2, lexeme := "", user_data := 0 }]
        ([] ++ [LX3.symbol P3.state_machine.end_symbol]) ([] ++ []) := by
  refine ⟨by decide, ?_⟩
  exact c3_driver_advances P3 5 3 LX3 [N_sent]
    [N_sent, { state := 1, symbol := some 2, lexeme := "", user_data := 0 }]
    [] [] [] (by decide)

/-- Witness for C4 (amended) over `M0`: the recovery-exhausted step satisfies
the disjunction through its right branch. -/
theorem c4_witness :
    Parser.parse_step P0 5 3 "" = some (P0r, false, [ErrorEvent.synErr]) ∧
    (1 ≤ P0r.nodes.length ∨
      (false = false ∧ ErrorEvent.synErr ∈ [ErrorEvent.synErr])) := by
  refine ⟨rfl, ?_⟩
  exact c4_depth_after_step P0 5 3 "" P0r false [ErrorEvent.synErr] rfl

/-- Witness for C6: the pop branch (over `M0`), the error-shift branch (over
`M3`), recovery exhaustion firing exactly one syntax error (over `M0`), and
the rejected step returning false. -/
theorem c6_witness :
    List.getLast? [N_sent] = some N_sent ∧
    find_transition P0.state_machine P0.state_machine.error_symbol
      N_sent.state = none ∧
    error_loop P0 3 [N_sent] false false false =
      error_loop P0 2 (List.dropLast [N_sent]) false false false ∧
    find_transition P3.state_machine P3.state_machine.error_symbol
      N_sent.state = some T_err3 ∧
    (T_err3.symbol = P3.state_machine.error_symbol ∧
      error_loop P3 3 [N_sent] false false false =
        some ([N_sent, { state := T_err3.state, symbol := some T_err3.symbol,
                         lexeme := "", user_data := default }],
              false, false, true, [])) ∧
    error P0 5 [N_sent] false false = some ([], false, true, [ErrorEvent.synErr]) ∧
    (true = true ∧
      ([ErrorEvent.synErr] : List ErrorEvent).count ErrorEvent.synErr = 1) ∧
    step_core P0 5 3 "" P0.nodes = some ([], false, true, [ErrorEvent.synErr]) ∧
    Parser.parse_step P0 5 3 "" = some (P0r, false, [ErrorEvent.synErr]) := by
  have h0 := c6_error_recovery P0
  have h3 := c6_error_recovery P3
  refine ⟨by decide, by decide, ?_, by decide, ?_, by decide, ?_, by decide, ?_⟩
  · exact h0.1 2 [N_sent] N_sent (by decide) (by decide)
  · exact h3.2.1 2 [N_sent] N_sent T_err3 (by decide) (by decide) rfl
  · exact h0.2.2.1 5 [N_sent] [] false false false true [ErrorEvent.synErr]
      (by decide) rfl
  · exact h0.2.2.2 P0 5 3 "" [] false [ErrorEvent.synErr] (by decide)

/-- Witness for C7 over `M1`: the epsilon reduction from the singleton stack
pushes the GOTO frame without popping the sentinel. -/
theorem c7_witness :
    M1_red.reduced_symbol ≠ P1.state_machine.start_symbol ∧
    M1_red.reduced_length + 1 ≤ ([N_sent] : List (ParserNode Nat)).length ∧
    (List.take (([N_sent] : List (ParserNode Nat)).length -
        M1_red.reduced_length) [N_sent]).getLast? = some N_sent ∧
    find_transition P1.state_machine M1_red.reduced_symbol N_sent.state =
      some T_g7 ∧
    reduce P1 M1_red [N_sent] false false =
      some (List.take (([N_sent] : List (ParserNode Nat)).length -
              M1_red.reduced_length) [N_sent] ++ [NF7], false, false) ∧
    (List.take (([N_sent] : List (ParserNode Nat)).length -
        M1_red.reduced_length) [N_sent] ++ [NF7]).length =
      ([N_sent] : List (ParserNode Nat)).length - M1_red.reduced_length + 1 := by
  have h := c7_reduce_within_stack P1 M1_red [N_sent] false false N_sent NF7 T_g7
    (by decide) (by decide) (by decide) (by decide) rfl
  exact ⟨by decide, by decide, by decide, by decide, h.1, h.2.2.1⟩

/-- Witness for C9 over `M0`: the rejecting step returns false and delivers
the syntax-error notification through the policy events. -/
theorem c9_witness :
    step_core P0 5 3 "" P0.nodes = some ([], false, true, [ErrorEvent.synErr]) ∧
    (Parser.parse_step P0 5 3 "" =
        some (P0r, !false && !true, [ErrorEvent.synErr]) ∧
      (true = true → (!false && !true) = false) ∧
      (true = true → ([ErrorEvent.synErr] : List ErrorEvent) ≠ [])) := by
  refine ⟨by decide, ?_⟩
  exact c9_errors_via_policy P0 5 3 "" [] false true [ErrorEvent.synErr] (by decide)

/-- Witness for C10: a parser whose `accepted` flag is on performs a
non-accepting step and ends with the flag cleared; and the accepted flag of a
reduction is on exactly for the start symbol. -/
theorem c10_witness :
    PW10.accepted = true ∧
    step_core PW10 5 3 "" PW10.nodes =
      some ([], false, true, [ErrorEvent.synErr]) ∧
    (∃ (p' : Parser Nat) (res : Bool) (evs' : List ErrorEvent),
      Parser.parse_step PW10 5 3 "" = some (p', res, evs') ∧
      p'.accepted = false) ∧
    reduce P2 M2_acc [N_sent, N_fin] false false = some ([N_fin], true, false) ∧
    (true = true ↔
      (false = true ∨ M2_acc.reduced_symbol = P2.state_machine.start_symbol)) := by
  refine ⟨rfl, by decide, ?_, by decide, ?_⟩
  · exact (c10_accepted_reassigned PW10).2.2 5 3 "" [] true [ErrorEvent.synErr]
      rfl (by decide)
  · exact (c10_accepted_reassigned P2).2.1 M2_acc [N_sent, N_fin] [N_fin]
      false false true false (by decide)

end LalrSpec
